import Mathlib

/-!
Verification development for the dev-flow repository's PTY-backed session
bridge and one-shot command execution path (backend/main.go,
backend/utils/ws_shell.go, and the earlier standalone server).

Commands and text payloads are modelled as `List Char`; raw byte payloads as
`List Nat` with every element `< 256`.  Fallible operations return `Option`.
-/

namespace DevFlow

/-- The base64 standard alphabet, as used by Go `encoding/base64.StdEncoding`
(`main.go` lines 360 and 377). -/
def b64Alphabet : List Char :=
  "ABCDEFGHIJKLMNOPQRSTUVWXYZabcdefghijklmnopqrstuvwxyz0123456789+/".data

/-- Character for a six-bit group (Go `encoding/base64` encode map). -/
def b64Char (s : Nat) : Char := b64Alphabet.getD s 'A'

/-- Index of a character in the standard alphabet; `none` for characters
outside the alphabet (Go `encoding/base64` decode map, which reports
`CorruptInputError` there). -/
def b64Index (c : Char) : Option Nat :=
  b64Alphabet.findIdx? (fun d => d = c)

/-- `base64.StdEncoding.EncodeToString`: bytes are consumed in groups of
three, emitting four alphabet characters; a trailing group of one byte emits
two characters and `==`, a trailing group of two bytes emits three characters
and `=`. -/
def b64Encode : List Nat → List Char
  | [] => []
  | [a] => [b64Char (a / 4), b64Char (a % 4 * 16), '=', '=']
  | [a, b] => [b64Char (a / 4), b64Char (a % 4 * 16 + b / 16), b64Char (b % 16 * 4), '=']
  | a :: b :: c :: rest =>
    b64Char (a / 4) :: b64Char (a % 4 * 16 + b / 16) ::
      b64Char (b % 16 * 4 + c / 64) :: b64Char (c % 64) :: b64Encode rest

/-- `base64.StdEncoding.DecodeString`: input is consumed four characters at a
time; `=` padding is legal only at the very end, closing a group of two or
three data characters; any character outside the alphabet, or a length not a
multiple of four, is a decode error (`none`). -/
def b64Decode : List Char → Option (List Nat)
  | [] => some []
  | c1 :: c2 :: c3 :: c4 :: rest =>
    match b64Index c1, b64Index c2 with
    | some s1, some s2 =>
      if c3 = '=' then
        if c4 = '=' ∧ rest = [] then some [s1 * 4 + s2 / 16] else none
      else
        match b64Index c3 with
        | some s3 =>
          if c4 = '=' then
            if rest = [] then some [s1 * 4 + s2 / 16, s2 % 16 * 16 + s3 / 4] else none
          else
            match b64Index c4 with
            | some s4 =>
              match b64Decode rest with
              | some tail =>
                some ((s1 * 4 + s2 / 16) :: (s2 % 16 * 16 + s3 / 4) :: (s3 % 4 * 64 + s4) :: tail)
              | none => none
            | none => none
        | none => none
    | _, _ => none
  | _ => none

/-- Go `strings.Contains(s, sub)`: `sub` occurs in `s` as a contiguous
(case-sensitive) substring. -/
def strContains (s sub : List Char) : Bool := decide (sub <:+: s)

/-- The slice of the loaded configuration that the blocking and execution
paths read: `config.Flows.Validation.BlockedCommands` and
`config.System.Shell.DefaultShell` (`main.go` Config struct). -/
structure Config where
  blockedCommands : List (List Char)
  defaultShell : List Char
deriving DecidableEq

/-- `isCommandBlocked` (`main.go:217-228`): `false` when the global config is
nil or the blocked list is empty; otherwise `true` iff some configured entry
occurs in the command via `strings.Contains`. -/
def isCommandBlocked (cfg : Option Config) (command : List Char) : Bool :=
  match cfg with
  | none => false
  | some c =>
    if c.blockedCommands.length = 0 then false
    else c.blockedCommands.any (fun blocked => strContains command blocked)

/-- The fields of `CommandResult` (`main.go:121-129`) that are functions of
the command and the process outcome.  `Duration` and `ExecutedAt` are
wall-clock values and are not modelled. -/
structure CommandResult where
  command : List Char
  exitCode : Int
  stdout : List Char
  stderr : List Char
  success : Bool
deriving DecidableEq

/-- Outcome of actually running `shell -c command` (`cmd.Run()` in
`executeCommand`): `exitErr = none` models a nil error from `Run`;
`exitErr = some e` models a non-nil error whose resolved exit code is `e`
(`-1` when the error is not an `ExitError`). -/
structure RunOutcome where
  exitErr : Option Int
  stdout : List Char
  stderr : List Char

/-- `executeCommand` (`main.go:231-284`), abstracted over the process oracle
`run shell command`.  The second component records whether a process was
spawned (`exec.Command ... Run` reached).  Blocked commands short-circuit
with exit code 1, empty stdout, a fixed stderr message, and no spawn. -/
def executeCommand (cfg : Config) (run : List Char → List Char → RunOutcome)
    (command : List Char) : CommandResult × Bool :=
  if isCommandBlocked (some cfg) command then
    (⟨command, 1, [], "Command blocked by security policy".data, false⟩, false)
  else
    let shell := if cfg.defaultShell = [] then "/bin/bash".data else cfg.defaultShell
    let out := run shell command
    let exitCode : Int := match out.exitErr with | none => 0 | some e => e
    (⟨command, exitCode, out.stdout, out.stderr, out.exitErr.isNone⟩, true)

/-- Observable actions of a bridge's establishment phase, in program order. -/
inductive StartAction where
  | spawn
  | sleepMs (n : Nat)
  | writePty (bytes : List Char)
deriving DecidableEq

/-- How session establishment ended. -/
inductive EstablishOutcome where
  | ok
  | policyViolation
deriving DecidableEq

/-- Result of the establishment phase: the outcome reported to the caller and
the ordered actions performed on the way. -/
structure EstablishResult where
  outcome : EstablishOutcome
  trace : List StartAction
deriving DecidableEq

/-- Establishment phase of `handleShellWebSocket` (`main.go:308-343`), on the
path where the WebSocket upgrade and `pty.Start` succeed: the shell is
spawned first (line 324); only then is the `command` query parameter checked
(line 334) — a blocked command aborts with HTTP 403 (`PolicyViolation`)
without writing to the PTY, and a non-blocked non-empty command is written
followed by a newline. -/
def handleShellEstablish (cfg : Option Config) (command : List Char) : EstablishResult :=
  if command = [] then ⟨.ok, [.spawn]⟩
  else if isCommandBlocked cfg command then ⟨.policyViolation, [.spawn]⟩
  else ⟨.ok, [.spawn, .writePty (command ++ ['\n'])]⟩

/-- Establishment phase of `utils.HandleShellWebSocket`
(`ws_shell.go:30-73`): spawn, a 100 ms initialization sleep, then — if the
`command` query parameter is non-empty — a further 200 ms sleep and a write
of the command bytes with no line terminator.  There is no blocking check in
this handler. -/
def utilsStartupTrace (command : List Char) : List StartAction :=
  [.spawn, .sleepMs 100] ++
    (if command = [] then [] else [.sleepMs 200, .writePty command])

/-- Establishment phase of the standalone server's `shellHandler`
(`part_002:50-76`): spawn, then — if the `command` query parameter is
non-empty — an immediate write of the command followed by a newline; no
sleeps and no blocking check. -/
def p2StartupTrace (command : List Char) : List StartAction :=
  [.spawn] ++ (if command = [] then [] else [.writePty (command ++ ['\n'])])

/-- Resource state of one Pseudo-Terminal Session. -/
structure SessionRes where
  ptyOpen : Bool
  procRunning : Bool
deriving DecidableEq

/-- Deferred teardown of `handleShellWebSocket` (`main.go:314,329`):
`defer ws.Close()` and `defer ptmx.Close()` — the PTY handle is closed, but
nothing terminates the subprocess. -/
def mainTeardown (s : SessionRes) : SessionRes :=
  { s with ptyOpen := false }

/-- Deferred teardown of `utils.HandleShellWebSocket` (`ws_shell.go:55-59`):
`ptmx.Close()` then `cmd.Process.Kill()`. -/
def utilsTeardown (_ : SessionRes) : SessionRes :=
  ⟨false, false⟩

/-- `wsPty.Stop` (`part_002:40-48`): `Pty.Close()`, `Process.Kill()`,
`Wait()` (behind nil guards that are always satisfied for a started
session). -/
def p2Teardown (_ : SessionRes) : SessionRes :=
  ⟨false, false⟩

/-- Environment of the subprocess spawned by `utils.HandleShellWebSocket`
(`ws_shell.go:34-38`): the inherited process environment with
`TERM=xterm-256color`, `PS1=$ ` and a fixed `PATH` appended.  Go's
`os/exec` resolves duplicate keys to the last entry in the slice. -/
def utilsSessionEnv (base : List (String × String)) : List (String × String) :=
  base ++
    [("TERM", "xterm-256color"), ("PS1", "$ "),
     ("PATH", "/usr/local/sbin:/usr/local/bin:/usr/sbin:/usr/bin:/sbin:/bin")]

/-- Environment of the subprocess spawned by `handleShellWebSocket`
(`main.go:323`): `cmd.Env` is never assigned, so the inherited process
environment is used unchanged. -/
def mainSessionEnv (base : List (String × String)) : List (String × String) :=
  base

/-- Environment of the subprocess spawned by `wsPty.Start`
(`part_002:32`): `os.Environ()` unchanged. -/
def p2SessionEnv (base : List (String × String)) : List (String × String) :=
  base

/-- Lookup with Go `os/exec` duplicate resolution: the last entry for a key
wins. -/
def envLookupLast (env : List (String × String)) (key : String) : Option String :=
  env.foldl (fun acc p => if p.1 == key then some p.2 else acc) none

/-- Pump A of `handleShellWebSocket` (`main.go:345-366`): each chunk read
from the PTY is base64-encoded and written as one WebSocket text message, in
read order. -/
def mainOutputPump (chunks : List (List Nat)) : List (List Char) :=
  chunks.map b64Encode

/-- Pump B of `handleShellWebSocket` (`main.go:368-388`): each inbound text
message is base64-decoded; a decode failure is logged and the message
dropped (`continue`), a success is written to the PTY.  The result is the
ordered list of PTY writes over the message sequence. -/
def mainInputPump : List (List Char) → List (List Nat)
  | [] => []
  | m :: rest =>
    match b64Decode m with
    | none => mainInputPump rest
    | some d => d :: mainInputPump rest

/-- Input pump of `utils.HandleShellWebSocket` (`ws_shell.go:79-102`): raw
message bytes are written to the PTY unmodified and in order, except that a
message equal to `"exit\r"`, `"exit\n"` or a lone EOT byte is intercepted:
the pump writes `"exit"` (dropping the terminator) and ends the session. -/
def wsInputPump : List (List Char) → List (List Char)
  | [] => []
  | m :: rest =>
    if m = "exit\r".data ∨ m = "exit\n".data ∨ m = "\x04".data then ["exit".data]
    else m :: wsInputPump rest

/-- Modelled from the spec: the variable-substitution step of the Session
Bridge (spec section 4.2, `Run` step 2) is implemented by the ID-based step
execution backend, which is referenced by the repository's embedded release
notes ("Flow variables are automatically fetched and substituted") and
called by the frontend (`Terminal.tsx` passes `step_id` to `/api/shell`),
but whose Go source is not present under the backend sources.  Following the
spec's words: scanning the command text left to right, every occurrence of
the literal placeholder `$\x7bkey\x7d` for a `key → value` pair in `env` is
replaced by `value`; there is no escaping; substituted values are not
rescanned (no recursive substitution); placeholders whose key is not in
`env`, and unterminated `$\x7b`, are left verbatim. -/
def substituteVars (env : List (List Char × List Char)) : List Char → List Char
  | [] => []
  | '$' :: '{' :: rest =>
    if '}' ∈ rest then
      let key := rest.takeWhile (fun c => !(c == '}'))
      let after := (rest.dropWhile (fun c => !(c == '}'))).tail
      match env.find? (fun p => p.1 == key) with
      | some p => p.2 ++ substituteVars env after
      | none => '$' :: '{' :: (key ++ '}' :: substituteVars env after)
    else '$' :: '{' :: substituteVars env rest
  | c :: rest => c :: substituteVars env rest
termination_by l => l.length
decreasing_by
  all_goals simp_wf
  all_goals try omega
  all_goals
    have hs := (List.dropWhile_suffix (l := rest) (fun c => !(c == '}'))).length_le
    omega

section Theorems

theorem b64Index_b64Char (s : Nat) (hs : s < 64) : b64Index (b64Char s) = some s := by
  have h : ∀ t : Fin 64, b64Index (b64Char t.val) = some t.val := by decide
  exact h ⟨s, hs⟩

theorem b64Char_ne_eq (s : Nat) (hs : s < 64) : (b64Char s = '=') = False := by
  have h : ∀ t : Fin 64, b64Char t.val ≠ '=' := by decide
  simp [h ⟨s, hs⟩]

/-- Round-trip: decoding the standard base64 encoding of any byte sequence
gives back exactly that sequence. -/
theorem b64_roundtrip :
    ∀ (bytes : List Nat), (∀ x ∈ bytes, x < 256) →
      b64Decode (b64Encode bytes) = some bytes
  | [], _ => rfl
  | [a], h => by
    have ha : a < 256 := h a (by simp)
    have h1 := b64Index_b64Char (a / 4) (by omega)
    have h2 := b64Index_b64Char (a % 4 * 16) (by omega)
    simp [b64Encode, b64Decode, h1, h2]
    omega
  | [a, b], h => by
    have ha : a < 256 := h a (by simp)
    have hb : b < 256 := h b (by simp)
    have h1 := b64Index_b64Char (a / 4) (by omega)
    have h2 := b64Index_b64Char (a % 4 * 16 + b / 16) (by omega)
    have h3 := b64Index_b64Char (b % 16 * 4) (by omega)
    have hne := b64Char_ne_eq (b % 16 * 4) (by omega)
    simp [b64Encode, b64Decode, h1, h2, h3, hne]
    omega
  | a :: b :: c :: rest, h => by
    have ha : a < 256 := h a (by simp)
    have hb : b < 256 := h b (by simp)
    have hc : c < 256 := h c (by simp)
    have ih := b64_roundtrip rest (fun x hx => h x (by simp [hx]))
    have h1 := b64Index_b64Char (a / 4) (by omega)
    have h2 := b64Index_b64Char (a % 4 * 16 + b / 16) (by omega)
    have h3 := b64Index_b64Char (b % 16 * 4 + c / 64) (by omega)
    have h4 := b64Index_b64Char (c % 64) (by omega)
    have hne3 := b64Char_ne_eq (b % 16 * 4 + c / 64) (by omega)
    have hne4 := b64Char_ne_eq (c % 64) (by omega)
    simp [b64Encode, b64Decode, h1, h2, h3, h4, hne3, hne4, ih]
    omega

theorem isCommandBlocked_of_mem (c : Config) (cmd b : List Char)
    (hb : b ∈ c.blockedCommands) (hsub : b <:+: cmd) :
    isCommandBlocked (some c) cmd = true := by
  have hne : c.blockedCommands.length ≠ 0 := by
    cases hl : c.blockedCommands with
    | nil => rw [hl] at hb; cases hb
    | cons x xs => simp
  simp only [isCommandBlocked, if_neg hne, List.any_eq_true, strContains,
    decide_eq_true_eq]
  exact ⟨b, hb, hsub⟩

theorem isCommandBlocked_iff (c : Config) (cmd : List Char) :
    isCommandBlocked (some c) cmd = true ↔ ∃ b ∈ c.blockedCommands, b <:+: cmd := by
  by_cases h : c.blockedCommands = []
  · simp [isCommandBlocked, h]
  · have hne : c.blockedCommands.length ≠ 0 := by
      simpa [List.length_eq_zero] using h
    simp [isCommandBlocked, if_neg hne, List.any_eq_true, strContains]
    exact fun x hx _ => h

/-- C5: for all byte sequences `b`, including non-UTF8 binary data, decoding
the transport-safe encoding of `b` yields `b` again under the base64
encoding used for outbound terminal bytes and inbound keystrokes
(`main.go:360,377`). -/
theorem claim_C5_roundtrip (b : List Nat) (h : ∀ x ∈ b, x < 256) :
    b64Decode (b64Encode b) = some b :=
  b64_roundtrip b h

theorem claim_C5_witness :
    (∀ x ∈ [104, 105, 0, 255], x < 256) ∧
      b64Decode (b64Encode [104, 105, 0, 255]) = some [104, 105, 0, 255] :=
  ⟨by decide, claim_C5_roundtrip [104, 105, 0, 255] (by decide)⟩

/-- C10: when no configuration is loaded or the blocked-commands list is
empty, `isCommandBlocked` classifies every command string as not blocked. -/
theorem claim_C10_empty_list (cfg : Option Config) (cmd : List Char)
    (h : cfg = none ∨ ∃ c, cfg = some c ∧ c.blockedCommands = []) :
    isCommandBlocked cfg cmd = false := by
  rcases h with h | ⟨c, rfl, hc⟩
  · simp [h, isCommandBlocked]
  · simp [isCommandBlocked, hc]

theorem claim_C10_witness :
    isCommandBlocked (some ⟨[], "/bin/bash".data⟩) ("rm -rf /".data) = false ∧
      isCommandBlocked none ("mkfs".data) = false :=
  ⟨claim_C10_empty_list (some ⟨[], "/bin/bash".data⟩) ("rm -rf /".data)
      (Or.inr ⟨_, rfl, rfl⟩),
    claim_C10_empty_list none ("mkfs".data) (Or.inl rfl)⟩

/-- C4: an inbound message that is not valid base64 is dropped by the
connection-to-PTY pump without writing to the PTY and without ending the
loop, and a subsequent valid message is still decoded and delivered. -/
theorem claim_C4_malformed_frame (bad good : List Char) (rest : List (List Char))
    (d : List Nat) (hbad : b64Decode bad = none) (hgood : b64Decode good = some d) :
    mainInputPump (bad :: rest) = mainInputPump rest ∧
      mainInputPump (bad :: good :: rest) = d :: mainInputPump rest := by
  constructor
  · simp [mainInputPump, hbad]
  · simp [mainInputPump, hbad, hgood]

theorem claim_C4_witness :
    b64Decode ("!!!!".data) = none ∧
      mainInputPump ["!!!!".data, b64Encode [104, 105]] = [[104, 105]] := by
  refine ⟨by decide, ?_⟩
  have h := claim_C4_malformed_frame ("!!!!".data) (b64Encode [104, 105]) []
    [104, 105] (by decide) (by decide)
  simpa [mainInputPump] using h.2

/-- C1 (counterexample): with blocked list `["rm -rf /"]` and startup command
`"rm -rf /"`, establishment does fail with `PolicyViolation`, but a shell
subprocess has been spawned (`pty.Start` at `main.go:324` runs before the
`isCommandBlocked` check at line 334), refuting "no subprocess is ever
spawned" and "the process-spawn state is unchanged". -/
theorem claim_C1_counterexample :
    (handleShellEstablish (some ⟨["rm -rf /".data], "/bin/bash".data⟩)
        ("rm -rf /".data)).outcome = EstablishOutcome.policyViolation ∧
      ¬ (StartAction.spawn ∉
        (handleShellEstablish (some ⟨["rm -rf /".data], "/bin/bash".data⟩)
          ("rm -rf /".data)).trace) := by
  decide

/-- C1 (amended): for every non-empty startup command containing a configured
forbidden substring, establishment fails with `PolicyViolation` and the
command is never written to the PTY; however, the shell subprocess has
already been spawned when the check runs, so the trace of a rejected request
is exactly one spawn. -/
theorem claim_C1_amended (c : Config) (cmd b : List Char) (hne : cmd ≠ [])
    (hb : b ∈ c.blockedCommands) (hsub : b <:+: cmd) :
    (handleShellEstablish (some c) cmd).outcome = EstablishOutcome.policyViolation ∧
      (handleShellEstablish (some c) cmd).trace = [StartAction.spawn] := by
  have hblocked := isCommandBlocked_of_mem c cmd b hb hsub
  simp [handleShellEstablish, hne, hblocked]

theorem claim_C1_witness :
    (handleShellEstablish (some ⟨["mkfs".data], "/bin/bash".data⟩)
        ("mkfs /dev/sda1".data)).outcome = EstablishOutcome.policyViolation ∧
      (handleShellEstablish (some ⟨["mkfs".data], "/bin/bash".data⟩)
        ("mkfs /dev/sda1".data)).trace = [StartAction.spawn] :=
  claim_C1_amended ⟨["mkfs".data], "/bin/bash".data⟩ ("mkfs /dev/sda1".data)
    ("mkfs".data) (by decide) (by decide) (by decide)

/-- C6: the one-shot execution path uses the same `isCommandBlocked` policy
as the session bridge (case-sensitive plain substring matching); a blocked
command yields `success = false`, exit code 1, the fixed stderr message and
empty stdout with no process spawned, and a non-blocked command spawns the
shell and returns the captured stdout, stderr and exit code. -/
theorem claim_C6_execute_policy (cfg : Config)
    (run : List Char → List Char → RunOutcome) (cmd : List Char) :
    (isCommandBlocked (some cfg) cmd = true ↔
      ∃ b ∈ cfg.blockedCommands, b <:+: cmd) ∧
    (isCommandBlocked (some cfg) cmd = true →
      executeCommand cfg run cmd =
        (⟨cmd, 1, [], "Command blocked by security policy".data, false⟩, false)) ∧
    (isCommandBlocked (some cfg) cmd = false →
      (executeCommand cfg run cmd).2 = true ∧
      (executeCommand cfg run cmd).1 =
        ⟨cmd,
          (run (if cfg.defaultShell = [] then "/bin/bash".data else cfg.defaultShell)
            cmd).exitErr.getD 0,
          (run (if cfg.defaultShell = [] then "/bin/bash".data else cfg.defaultShell)
            cmd).stdout,
          (run (if cfg.defaultShell = [] then "/bin/bash".data else cfg.defaultShell)
            cmd).stderr,
          (run (if cfg.defaultShell = [] then "/bin/bash".data else cfg.defaultShell)
            cmd).exitErr.isNone⟩) ∧
    (cmd ≠ [] →
      ((handleShellEstablish (some cfg) cmd).outcome = EstablishOutcome.policyViolation ↔
        (executeCommand cfg run cmd).2 = false)) := by
  refine ⟨isCommandBlocked_iff cfg cmd, ?_, ?_, ?_⟩
  · intro h
    simp [executeCommand, h]
  · intro h
    refine ⟨by simp [executeCommand, h], ?_⟩
    simp only [executeCommand, h, Bool.false_eq_true, if_neg]
    cases hx : (run (if cfg.defaultShell = [] then "/bin/bash".data else cfg.defaultShell)
        cmd).exitErr <;>
      simp [hx, Option.getD]
  · intro hne
    by_cases hblk : isCommandBlocked (some cfg) cmd = true
    · simp [handleShellEstablish, executeCommand, hne, hblk]
    · simp only [Bool.not_eq_true] at hblk
      simp [handleShellEstablish, executeCommand, hne, hblk]

theorem claim_C6_witness :
    isCommandBlocked (some ⟨["mkfs".data], []⟩) ("mkfs -t ext4 /dev/sda1".data) = true ∧
      executeCommand ⟨["mkfs".data], []⟩ (fun _ _ => ⟨none, [], []⟩)
        ("mkfs -t ext4 /dev/sda1".data) =
        (⟨"mkfs -t ext4 /dev/sda1".data, 1, [],
          "Command blocked by security policy".data, false⟩, false) :=
  ⟨by decide,
    (claim_C6_execute_policy ⟨["mkfs".data], []⟩ (fun _ _ => ⟨none, [], []⟩)
      ("mkfs -t ext4 /dev/sda1".data)).2.1 (by decide)⟩

/-- C3 (counterexample): the deferred teardown of `handleShellWebSocket`
(`main.go:329`) closes the PTY handle but never terminates the subprocess:
from a state with the process still running, teardown leaves it running,
refuting "forcibly terminates the subprocess if it is still running". -/
theorem claim_C3_counterexample :
    (mainTeardown ⟨true, true⟩).ptyOpen = false ∧
      ¬ ((mainTeardown ⟨true, true⟩).procRunning = false) := by
  decide

/-- C3 (amended): the teardown of `utils.HandleShellWebSocket` and of the
standalone server's `wsPty.Stop` closes the PTY handle and kills the
subprocess; the teardown of `main.go`'s `handleShellWebSocket` closes only
the PTY handle and leaves the subprocess state untouched. -/
theorem claim_C3_amended (s : SessionRes) :
    utilsTeardown s = ⟨false, false⟩ ∧ p2Teardown s = ⟨false, false⟩ ∧
      (mainTeardown s).ptyOpen = false ∧
      (mainTeardown s).procRunning = s.procRunning :=
  ⟨rfl, rfl, rfl, rfl⟩

/-- C7 (counterexample): the utils bridge writes the startup command without
a line terminator (only `"ls"`, never `"ls\n"`, is written), and `main.go`'s
bridge writes `"ls\n"` immediately after spawn with no initialization sleep
in its trace — so no implementation both appends the terminator and delays. -/
theorem claim_C7_counterexample :
    (StartAction.writePty ("ls".data) ∈ utilsStartupTrace ("ls".data) ∧
      StartAction.writePty ("ls\n".data) ∉ utilsStartupTrace ("ls".data)) ∧
      handleShellEstablish none ("ls".data) =
        ⟨EstablishOutcome.ok,
          [StartAction.spawn, StartAction.writePty ("ls\n".data)]⟩ := by
  decide

/-- C7 (amended): for a non-empty startup command, the utils bridge sleeps
(100 ms + 200 ms) and then writes the command without a line terminator,
while `main.go`'s bridge and the standalone server write the command
followed by a newline immediately, with no initialization delay; when the
command is empty, none of the three writes anything to the PTY before
client input. -/
theorem claim_C7_amended (cmd : List Char) (h : cmd ≠ []) :
    utilsStartupTrace cmd =
      [StartAction.spawn, StartAction.sleepMs 100, StartAction.sleepMs 200,
        StartAction.writePty cmd] ∧
    p2StartupTrace cmd = [StartAction.spawn, StartAction.writePty (cmd ++ ['\n'])] ∧
    (∀ cfg, isCommandBlocked cfg cmd = false →
      handleShellEstablish cfg cmd =
        ⟨EstablishOutcome.ok,
          [StartAction.spawn, StartAction.writePty (cmd ++ ['\n'])]⟩) ∧
    utilsStartupTrace [] = [StartAction.spawn, StartAction.sleepMs 100] ∧
    p2StartupTrace [] = [StartAction.spawn] ∧
    (∀ cfg, handleShellEstablish cfg [] = ⟨EstablishOutcome.ok, [StartAction.spawn]⟩) := by
  refine ⟨by simp [utilsStartupTrace, h], by simp [p2StartupTrace, h], ?_,
    by simp [utilsStartupTrace], by simp [p2StartupTrace],
    fun cfg => by simp [handleShellEstablish]⟩
  intro cfg hblk
  simp [handleShellEstablish, h, hblk]

theorem claim_C7_witness :
    ("ls".data ≠ []) ∧
      utilsStartupTrace ("ls".data) =
        [StartAction.spawn, StartAction.sleepMs 100, StartAction.sleepMs 200,
          StartAction.writePty ("ls".data)] :=
  ⟨by decide, (claim_C7_amended ("ls".data) (by decide)).1⟩

/-- C8 (counterexample): `main.go`'s `handleShellWebSocket` never assigns
`cmd.Env`, so the spawned shell inherits the base environment unchanged: if
the base environment has no `TERM=xterm-256color` entry, the session's
environment does not carry it. -/
theorem claim_C8_counterexample :
    ¬ (envLookupLast (mainSessionEnv []) "TERM" = some "xterm-256color") := by
  decide

/-- C8 (amended): sessions started by `utils.HandleShellWebSocket` always
carry `TERM=xterm-256color` (appended after the inherited environment, so it
wins under Go's last-entry-wins duplicate resolution) regardless of the base
environment; sessions started by `main.go`'s `handleShellWebSocket` and by
the standalone server's `wsPty.Start` use the inherited environment
unchanged, with no `TERM` guarantee. -/
theorem claim_C8_amended (base : List (String × String)) :
    envLookupLast (utilsSessionEnv base) "TERM" = some "xterm-256color" ∧
      mainSessionEnv base = base ∧ p2SessionEnv base = base := by
  refine ⟨?_, rfl, rfl⟩
  rw [envLookupLast, utilsSessionEnv, List.foldl_append]
  rfl

theorem mainOutputPump_decode :
    ∀ (chunks : List (List Nat)), (∀ ch ∈ chunks, ∀ x ∈ ch, x < 256) →
      (mainOutputPump chunks).map b64Decode = chunks.map some
  | [], _ => rfl
  | c :: cs, h => by
    have hc := b64_roundtrip c (h c (by simp))
    have ih := mainOutputPump_decode cs (fun ch hch => h ch (by simp [hch]))
    simpa [mainOutputPump, hc] using ih

theorem mainInputPump_encode :
    ∀ (ds : List (List Nat)), (∀ d ∈ ds, ∀ x ∈ d, x < 256) →
      mainInputPump (ds.map b64Encode) = ds
  | [], _ => rfl
  | d :: ds, h => by
    have hd := b64_roundtrip d (h d (by simp))
    have ih := mainInputPump_encode ds (fun e he => h e (by simp [he]))
    simp [mainInputPump, hd, ih]

theorem wsInputPump_id :
    ∀ (msgs : List (List Char)),
      (∀ m ∈ msgs, m ≠ "exit\r".data ∧ m ≠ "exit\n".data ∧ m ≠ "\x04".data) →
      wsInputPump msgs = msgs
  | [], _ => rfl
  | m :: ms, h => by
    have hm := h m (by simp)
    have ih := wsInputPump_id ms (fun x hx => h x (by simp [hx]))
    simp [wsInputPump, hm.1, hm.2.1, hm.2.2, ih]

/-- C9 (counterexample): the input pump of `utils.HandleShellWebSocket`
intercepts the client message `"exit\r"` and writes `"exit"` to the PTY
instead (`ws_shell.go:90-93`), suppressing the terminator byte — the bridge
does not forward every received byte sequence unmodified. -/
theorem claim_C9_counterexample :
    wsInputPump [("exit\r".data)] = [("exit".data)] ∧
      ("exit\r".data) ≠ ("exit".data) := by
  decide

/-- C9 (amended): within a session, `main.go`'s pumps preserve byte order
and content in both directions — the PTY-to-connection pump emits one
base64 message per chunk in read order (decoding the message stream
recovers exactly the chunk stream), and the connection-to-PTY pump writes
the decoded payloads in receive order; the utils input pump forwards
messages unmodified and in order as long as no message is one of the
intercepted exit forms. -/
theorem claim_C9_amended (chunks ds : List (List Nat)) (msgs : List (List Char))
    (h1 : ∀ ch ∈ chunks, ∀ x ∈ ch, x < 256)
    (h2 : ∀ d ∈ ds, ∀ x ∈ d, x < 256)
    (h3 : ∀ m ∈ msgs, m ≠ "exit\r".data ∧ m ≠ "exit\n".data ∧ m ≠ "\x04".data) :
    (mainOutputPump chunks).map b64Decode = chunks.map some ∧
      mainInputPump (ds.map b64Encode) = ds ∧
      wsInputPump msgs = msgs :=
  ⟨mainOutputPump_decode chunks h1, mainInputPump_encode ds h2, wsInputPump_id msgs h3⟩

theorem claim_C9_witness :
    (mainOutputPump [[0, 255]]).map b64Decode = [some [0, 255]] ∧
      mainInputPump ([[104]].map b64Encode) = [[104]] ∧
      wsInputPump [("h".data)] = [("h".data)] :=
  claim_C9_amended [[0, 255]] [[104]] [("h".data)] (by decide) (by decide) (by decide)

/-- C2: variable substitution on the startup command (spec-modelled, see
`substituteVars`): every occurrence of `$\x7bkey\x7d` for a pair in `env` is
replaced by the value — in particular `echo $\x7bNAME\x7d` with
`NAME = world` becomes `echo world` — with no recursive substitution and
unresolved placeholders left verbatim. -/
theorem claim_C2_substitution (value : List Char) :
    substituteVars [("NAME".data, value)] ("echo $\x7bNAME\x7d".data) =
      "echo ".data ++ value ∧
    substituteVars [("NAME".data, "world".data)] ("echo $\x7bNAME\x7d".data) =
      "echo world".data ∧
    substituteVars [("X".data, value)] ("$\x7bX\x7d and $\x7bX\x7d".data) =
      value ++ " and ".data ++ value ∧
    substituteVars [("NAME".data, "world".data)] ("echo $\x7bOTHER\x7d".data) =
      "echo $\x7bOTHER\x7d".data ∧
    substituteVars [("A".data, "$\x7bB\x7d".data), ("B".data, "x".data)]
      ("$\x7bA\x7d".data) = "$\x7bB\x7d".data := by
  refine ⟨?_, ?_, ?_, ?_, ?_⟩ <;> simp [substituteVars]

end Theorems

end DevFlow
